import Mathlib

/-!
# Verification of the `ulid` package API (`src/ulid/api.py`)

Shallow embedding of the public constructors of the `ulid` Python package:
`new`, `from_bytes`, `from_int`, `from_str`, `from_uuid`, `from_timestamp`,
`from_randomness`.

Modelling conventions:
* Python byte buffers (`bytes`, `bytearray`, `memoryview`) are `List Nat`
  (each element a byte value).
* Python strings are `List Char`.
* Python `int` is `Int`.
* Python `float` is modelled as an exact rational (`ℚ`): arithmetic such as
  `timestamp * 1000.0` is exact in the model, and `int(x)` is truncation
  toward zero.  Within the 48-bit millisecond range relevant to the claims,
  every product `seconds * 1000` is an integer below `2 ^ 53`, hence exactly
  representable as an IEEE double, so the idealisation agrees with CPython.
* A fallible call returns `Except Err α`; `Err` distinguishes Python
  `ValueError` from `OverflowError` (the latter is what `int.to_bytes`
  raises on negative or oversized values).
* The clock (`time.time()`) and the random source (`os.urandom(10)`) are
  explicit parameters, per the spec's external-interface contract that the
  random source returns exactly the requested number of bytes.

The repository files `ulid/base32.py` and `ulid/ulid.py` are not part of the
provided sources; the Base32 codec and the ULID/Timestamp/Randomness value
objects are modelled from the spec (see the doc comments on those
definitions).
-/

/-- Python error kinds relevant to the API: `ValueError` with its message,
and `OverflowError` (raised by `int.to_bytes` on out-of-range values). -/
inductive Err where
  | valueError : String → Err
  | overflowError : String → Err
deriving DecidableEq, Repr

/-- Big-endian digits of `n` in base `b`, least-significant first, padded or
restricted to exactly `w` digits (the reversed rendering used by
`natToDigits`). -/
def natToDigitsRev (b : Nat) : Nat → Nat → List Nat
  | 0, _ => []
  | w + 1, n => (n % b) :: natToDigitsRev b w (n / b)

/-- Fixed-width big-endian base-`b` rendering of `n` as exactly `w` digits,
most-significant first: the model of `int.to_bytes(w, byteorder='big')`
(base 256) and of the 5-bit-group extraction of the Base32 encoder
(base 32). -/
def natToDigits (b w n : Nat) : List Nat :=
  (natToDigitsRev b w n).reverse

/-- Value of a big-endian digit string in base `b`: the model of
`int.from_bytes(-, byteorder='big')` (base 256) and of the concatenation of
5-bit groups on Base32 decode (base 32). -/
def digitsToNat (b : Nat) (ds : List Nat) : Nat :=
  ds.foldl (fun a d => a * b + d) 0

theorem natToDigitsRev_length (b w n : Nat) : (natToDigitsRev b w n).length = w := by
  induction w generalizing n with
  | zero => rfl
  | succ w ih => simp [natToDigitsRev, ih]

theorem natToDigits_length (b w n : Nat) : (natToDigits b w n).length = w := by
  simp [natToDigits, natToDigitsRev_length]

theorem natToDigitsRev_lt (b w n : Nat) (hb : 0 < b) :
    ∀ d ∈ natToDigitsRev b w n, d < b := by
  induction w generalizing n with
  | zero => simp [natToDigitsRev]
  | succ w ih =>
    intro d hd
    rcases List.mem_cons.mp hd with h | h
    · exact h ▸ Nat.mod_lt _ hb
    · exact ih _ d h

theorem natToDigits_lt (b w n : Nat) (hb : 0 < b) :
    ∀ d ∈ natToDigits b w n, d < b := by
  intro d hd
  exact natToDigitsRev_lt b w n hb d (List.mem_reverse.mp hd)

/-- Value of a least-significant-first digit list. -/
def digitsRevToNat (b : Nat) (ds : List Nat) : Nat :=
  ds.foldr (fun d a => a * b + d) 0

theorem digitsToNat_reverse (b : Nat) (ds : List Nat) :
    digitsToNat b ds.reverse = digitsRevToNat b ds := by
  simp [digitsToNat, digitsRevToNat, List.foldl_reverse]

theorem digitsRevToNat_natToDigitsRev (b w n : Nat) (h : n < b ^ w) :
    digitsRevToNat b (natToDigitsRev b w n) = n := by
  induction w generalizing n with
  | zero =>
    simp [pow_zero] at h
    simp [natToDigitsRev, digitsRevToNat, h]
  | succ w ih =>
    have hb : 0 < b := by
      rcases Nat.eq_zero_or_pos b with hb | hb
      · subst hb; simp [pow_succ] at h
      · exact hb
    have hdiv : n / b < b ^ w := by
      rw [Nat.div_lt_iff_lt_mul hb]
      calc n < b ^ (w + 1) := h
        _ = b ^ w * b := pow_succ b w
    simp only [natToDigitsRev, digitsRevToNat, List.foldr_cons]
    have := ih (n / b) hdiv
    simp only [digitsRevToNat] at this
    rw [this, Nat.mul_comm]
    exact Nat.div_add_mod n b

theorem digitsToNat_natToDigits (b w n : Nat) (h : n < b ^ w) :
    digitsToNat b (natToDigits b w n) = n := by
  rw [natToDigits, digitsToNat_reverse]
  exact digitsRevToNat_natToDigitsRev b w n h

theorem digitsRevToNat_lt (b : Nat) (ds : List Nat) (hb : 0 < b)
    (h : ∀ d ∈ ds, d < b) : digitsRevToNat b ds < b ^ ds.length := by
  induction ds with
  | nil => simp [digitsRevToNat]
  | cons d ds ih =>
    have hd : d < b := h d (List.mem_cons_self d ds)
    have hds := ih fun x hx => h x (List.mem_cons_of_mem d hx)
    simp only [digitsRevToNat] at hds
    simp only [digitsRevToNat, List.foldr_cons, List.length_cons, pow_succ]
    calc (ds.foldr (fun d a => a * b + d) 0) * b + d
        < (ds.foldr (fun d a => a * b + d) 0) * b + b := by omega
      _ = ((ds.foldr (fun d a => a * b + d) 0) + 1) * b := by ring
      _ ≤ b ^ ds.length * b := Nat.mul_le_mul_right b hds

theorem digitsToNat_lt (b : Nat) (ds : List Nat) (hb : 0 < b)
    (h : ∀ d ∈ ds, d < b) : digitsToNat b ds < b ^ ds.length := by
  have := digitsRevToNat_lt b ds.reverse hb (fun d hd => h d (List.mem_reverse.mp hd))
  rw [← digitsToNat_reverse, List.reverse_reverse] at this
  simpa using this

theorem natToDigitsRev_digitsRevToNat (b : Nat) (ds : List Nat) (hb : 0 < b)
    (h : ∀ d ∈ ds, d < b) :
    natToDigitsRev b ds.length (digitsRevToNat b ds) = ds := by
  induction ds with
  | nil => rfl
  | cons d ds ih =>
    have hd : d < b := h d (List.mem_cons_self d ds)
    have hb : 0 < b := by omega
    have hds := ih fun x hx => h x (List.mem_cons_of_mem d hx)
    simp only [digitsRevToNat, List.foldr_cons] at hds ⊢
    simp only [List.length_cons, natToDigitsRev]
    have h1 : ((ds.foldr (fun d a => a * b + d) 0) * b + d) % b = d := by
      rw [Nat.add_comm, Nat.add_mul_mod_self_right, Nat.mod_eq_of_lt hd]
    have h2 : ((ds.foldr (fun d a => a * b + d) 0) * b + d) / b = ds.foldr (fun d a => a * b + d) 0 := by
      rw [Nat.mul_comm, Nat.mul_add_div hb, Nat.div_eq_of_lt hd, Nat.add_zero]
    rw [h1, h2, hds]

theorem natToDigits_digitsToNat (b : Nat) (ds : List Nat) (hb : 0 < b)
    (h : ∀ d ∈ ds, d < b) :
    natToDigits b ds.length (digitsToNat b ds) = ds := by
  have hrev : ∀ d ∈ ds.reverse, d < b := fun d hd => h d (List.mem_reverse.mp hd)
  have key := natToDigitsRev_digitsRevToNat b ds.reverse hb hrev
  have hval : digitsToNat b ds = digitsRevToNat b ds.reverse := by
    rw [← digitsToNat_reverse, List.reverse_reverse]
  rw [natToDigits, hval, ← List.length_reverse ds, key, List.reverse_reverse]

/-- Modelled from the spec: the fixed 32-symbol Base32 alphabet of the
codec (`ulid/base32.py` is not among the provided sources).  Crockford's
alphabet: digits then letters with `I`, `L`, `O`, `U` excluded, matching
the spec's alphabet-rejection example. -/
def ENCODING : List Char :=
  ['0', '1', '2', '3', '4', '5', '6', '7', '8', '9',
   'A', 'B', 'C', 'D', 'E', 'F', 'G', 'H', 'J', 'K',
   'M', 'N', 'P', 'Q', 'R', 'S', 'T', 'V', 'W', 'X', 'Y', 'Z']

/-- Modelled from the spec: the canonical character emitted for a 5-bit
group value (canonical emission is a single fixed case). -/
def alphaChar (d : Nat) : Char := ENCODING.getD d '0'

/-- Modelled from the spec: case-folded lookup of a character's 5-bit value
in the alphabet; `none` when the character is not a member of the
alphabet. -/
def decodeChar (c : Char) : Option Nat :=
  let i := ENCODING.indexOf c.toUpper
  if i < 32 then some i else none

theorem decodeChar_alphaChar : ∀ d < 32, decodeChar (alphaChar d) = some d := by
  decide

/-- Modelled from the spec: generic fixed-width Base32 encoder — the byte
buffer is read as one big-endian unsigned integer and emitted as `chars`
5-bit groups from the most-significant end. -/
def encode_base32 (chars : Nat) (b : List Nat) : List Char :=
  (natToDigits 32 chars (digitsToNat 256 b)).map alphaChar

/-- Modelled from the spec: `encode_ulid` — 16-byte buffer to its canonical
26-character form (130 bits of capacity, top 2 bits always zero). -/
def encode_ulid (b : List Nat) : List Char := encode_base32 26 b

/-- Modelled from the spec: `encode_timestamp` — 6-byte timestamp to its
10-character form (50 bits of capacity, top 2 bits always zero). -/
def encode_timestamp (b : List Nat) : List Char := encode_base32 10 b

/-- Modelled from the spec: `encode_randomness` — 10-byte randomness to its
16-character form (80 bits exactly). -/
def encode_randomness (b : List Nat) : List Char := encode_base32 16 b

/-- Modelled from the spec: look up every character of the input in the
alphabet, in input order; `none` as soon as any character is not a member
of the alphabet. -/
def decodeChars : List Char → Option (List Nat)
  | [] => some []
  | c :: cs =>
    match decodeChar c, decodeChars cs with
    | some d, some ds => some (d :: ds)
    | _, _ => none

/-- Modelled from the spec: generic fixed-width Base32 decoder.  Fails when
the length is not `chars`, when a character is outside the alphabet, or
when the decoded value exceeds the true bit capacity `bits` of the target
width (`width` bytes); otherwise renders the value as a fixed-width
big-endian buffer.  Failures are Python `ValueError`s. -/
def decode_base32 (chars width bits : Nat) (s : List Char) : Except Err (List Nat) :=
  if s.length ≠ chars then
    .error (.valueError ("Expects " ++ toString chars ++ " characters for decoding; got " ++
      toString s.length))
  else
    match decodeChars s with
    | none => .error (.valueError "Non-base32 character")
    | some ds =>
      let n := digitsToNat 32 ds
      if 2 ^ bits ≤ n then
        .error (.valueError "Value exceeds the bit capacity of the target width")
      else
        .ok (natToDigits 256 width n)

/-- Modelled from the spec: `decode_ulid` — 26 characters to the 16-byte
buffer; the 2 leading capacity bits must be zero. -/
def decode_ulid (s : List Char) : Except Err (List Nat) := decode_base32 26 16 128 s

/-- Modelled from the spec: `decode_timestamp` — 10 characters to the
6-byte timestamp; the 2 leading capacity bits must be zero. -/
def decode_timestamp (s : List Char) : Except Err (List Nat) := decode_base32 10 6 48 s

/-- Modelled from the spec: `decode_randomness` — 16 characters to the
10-byte randomness buffer (80 bits exactly, no capacity headroom). -/
def decode_randomness (s : List Char) : Except Err (List Nat) := decode_base32 16 10 80 s

/-- Modelled from the spec: the `ulid.ulid.Timestamp` value object — a
standalone timestamp component materialised as its bytes. -/
structure Timestamp where
  bytes : List Nat
deriving DecidableEq, Repr

/-- Milliseconds since epoch of a Timestamp component: its 6 bytes read as
an unsigned big-endian integer. -/
def Timestamp.milliseconds (t : Timestamp) : Nat := digitsToNat 256 t.bytes

/-- Modelled from the spec: the `ulid.ulid.Randomness` value object — a
standalone randomness component materialised as its bytes. -/
structure Randomness where
  bytes : List Nat
deriving DecidableEq, Repr

/-- Modelled from the spec: the `ulid.ulid.ULID` value object — it stores
the 16 canonical bytes verbatim. -/
structure ULID where
  bytes : List Nat
deriving DecidableEq, Repr

/-- Modelled from the spec: the Timestamp component accessor — bytes
`[0:6)` of the identifier. -/
def ULID.timestamp (u : ULID) : Timestamp := ⟨u.bytes.take 6⟩

/-- Modelled from the spec: the Randomness component accessor — bytes
`[6:16)` of the identifier. -/
def ULID.randomness (u : ULID) : Randomness := ⟨(u.bytes.drop 6).take 10⟩

/-- The external 128-bit UUID value (`uuid.UUID`): any value exposing its
raw 16 bytes in a fixed byte order (spec §6); `bytes` models the Python
`UUID.bytes` accessor. -/
structure UUID where
  bytes : List Nat
deriving DecidableEq, Repr

/-- Python `int(q)` for a float `q` (modelled as an exact rational):
truncation toward zero. -/
def pyTrunc (q : ℚ) : Int := q.num.sign * ((q.num.natAbs / q.den : Nat) : Int)

/-- Python `int(q * 1000.0)` for a float `q` (modelled as an exact
rational): the exact product truncated toward zero.  Computed on the
numerator and denominator directly so no rational normalisation is
involved. -/
def msOfSeconds (q : ℚ) : Int := q.num.sign * ((q.num.natAbs * 1000 / q.den : Nat) : Int)

/-- Python `value.to_bytes(length, byteorder='big')`: raises
`OverflowError` when the integer is negative or does not fit in `length`
bytes, otherwise the fixed-width big-endian rendering. -/
def to_bytes (value : Int) (length : Nat) : Except Err (List Nat) :=
  if value < 0 then .error (.overflowError "cannot convert negative int to unsigned")
  else if 256 ^ length ≤ value.toNat then .error (.overflowError "int too big to convert")
  else .ok (natToDigits 256 length value.toNat)

/-- Python `int.bit_length()` for a non-negative integer. -/
def bit_length (n : Nat) : Nat := if n = 0 then 0 else Nat.log2 n + 1

/-- `api.new()`: timestamp from the clock (`time.time()` seconds, passed in
as `tnow`), randomness from the random source (`os.urandom(10)`, passed in
as `rand`); `int(time.time() * 1000).to_bytes(6, byteorder='big')` then
concatenation. -/
def new (tnow : ℚ) (rand : List Nat) : Except Err ULID :=
  match to_bytes (msOfSeconds tnow) 6 with
  | .error e => .error e
  | .ok timestamp => .ok (ULID.mk (timestamp ++ rand))

/-- `api.from_bytes(value)`: requires exactly 16 bytes, used verbatim. -/
def from_bytes (value : List Nat) : Except Err ULID :=
  let length := value.length
  if length ≠ 16 then
    .error (.valueError ("Expects bytes to be 128 bits; got " ++ toString length ++ " bytes"))
  else
    .ok (ULID.mk value)

/-- `api.from_int(value)`: rejects negatives, rejects integers whose byte
length exceeds 16, then renders `value.to_bytes(16, byteorder='big')`. -/
def from_int (value : Int) : Except Err ULID :=
  if value < 0 then .error (.valueError "Expects positive integer")
  else
    let length := (bit_length value.toNat + 7) / 8
    if 16 < length then
      .error (.valueError ("Expects integer to be 128 bits; got " ++ toString length ++ " bytes"))
    else
      match to_bytes value 16 with
      | .error e => .error e
      | .ok b => .ok (ULID.mk b)

/-- `api.from_str(value)`: `ulid.ULID(base32.decode_ulid(value))`. -/
def from_str (value : List Char) : Except Err ULID :=
  match decode_ulid value with
  | .error e => .error e
  | .ok b => .ok (ULID.mk b)

/-- `api.from_uuid(value)`: `ulid.ULID(value.bytes)` — the UUID's raw bytes
reinterpreted verbatim; this call cannot fail. -/
def from_uuid (value : UUID) : ULID := ULID.mk value.bytes

/-- The runtime shapes accepted by `api.from_timestamp` (the
`TimestampPrimitive` union), plus `other` for any value outside the union,
carrying the Python type name reported in the error message.  `datetime`
carries the float returned by `datetime.timestamp()` (seconds); floats are
exact rationals in the model. -/
inductive TimestampPrimitive where
  | datetime (seconds : ℚ)
  | int (n : Int)
  | float (q : ℚ)
  | str (s : List Char)
  | memoryview (b : List Nat)
  | timestamp (t : Timestamp)
  | ulid (u : ULID)
  | bytes (b : List Nat)
  | bytearray (b : List Nat)
  | other (tyName : String)

/-- The shape-specific reduction of `api.from_timestamp` (lines 132-147 of
`api.py`): `datetime` is first converted to float seconds, numeric forms
become `int(t * 1000.0).to_bytes(6, 'big')` (for a Python `int` the exact
product is `n * 1000`), strings are Base32-decoded, `memoryview` becomes
its bytes, `Timestamp`/`ULID` contribute their timestamp bytes, and any
other shape is the `ValueError` naming the offending type. -/
def reduce_timestamp (timestamp : TimestampPrimitive) : Except Err (List Nat) :=
  match timestamp with
  | .datetime seconds => to_bytes (msOfSeconds seconds) 6
  | .int n => to_bytes (n * 1000) 6
  | .float q => to_bytes (msOfSeconds q) 6
  | .str s => decode_timestamp s
  | .memoryview b => .ok b
  | .timestamp t => .ok t.bytes
  | .ulid u => .ok u.timestamp.bytes
  | .bytes b => .ok b
  | .bytearray b => .ok b
  | .other tyName =>
    .error (.valueError ("Expected datetime, int, float, str, memoryview, Timestamp, ULID, " ++
      "bytes, or bytearray; got " ++ tyName))

/-- `api.from_timestamp(timestamp)`: reduce the input to timestamp bytes,
require exactly 6 of them, then append 10 fresh random bytes (`os.urandom`,
passed in as `rand`). -/
def from_timestamp (timestamp : TimestampPrimitive) (rand : List Nat) : Except Err ULID :=
  match reduce_timestamp timestamp with
  | .error e => .error e
  | .ok ts =>
    let length := ts.length
    if length ≠ 6 then
      .error (.valueError ("Expects timestamp to be 48 bits; got " ++ toString length ++ " bytes"))
    else
      .ok (ULID.mk (ts ++ rand))

/-- The runtime shapes accepted by `api.from_randomness` (the
`RandomnessPrimitive` union), plus `other` for any value outside the
union, carrying the Python type name reported in the error message. -/
inductive RandomnessPrimitive where
  | int (n : Int)
  | float (q : ℚ)
  | str (s : List Char)
  | memoryview (b : List Nat)
  | randomness (r : Randomness)
  | ulid (u : ULID)
  | bytes (b : List Nat)
  | bytearray (b : List Nat)
  | other (tyName : String)

/-- The shape-specific reduction of `api.from_randomness` (lines 180-193 of
`api.py`): numeric forms become `int(r).to_bytes(10, 'big')`, strings are
Base32-decoded, `memoryview` becomes its bytes, `Randomness`/`ULID`
contribute their randomness bytes, and any other shape is the `ValueError`
naming the offending type. -/
def reduce_randomness (randomness : RandomnessPrimitive) : Except Err (List Nat) :=
  match randomness with
  | .int n => to_bytes n 10
  | .float q => to_bytes (pyTrunc q) 10
  | .str s => decode_randomness s
  | .memoryview b => .ok b
  | .randomness r => .ok r.bytes
  | .ulid u => .ok u.randomness.bytes
  | .bytes b => .ok b
  | .bytearray b => .ok b
  | .other tyName =>
    .error (.valueError ("Expected int, float, str, memoryview, Randomness, ULID, " ++
      "bytes, or bytearray; got " ++ tyName))

/-- `api.from_randomness(randomness)`: reduce the input to randomness
bytes, require exactly 10 of them, then prepend 6 fresh clock bytes
(`int(time.time() * 1000).to_bytes(6, 'big')`, the clock seconds passed in
as `tnow`). -/
def from_randomness (randomness : RandomnessPrimitive) (tnow : ℚ) : Except Err ULID :=
  match reduce_randomness randomness with
  | .error e => .error e
  | .ok r =>
    let length := r.length
    if length ≠ 10 then
      .error (.valueError ("Expects randomness to be 80 bits; got " ++ toString length ++ " bytes"))
    else
      match to_bytes (msOfSeconds tnow) 6 with
      | .error e => .error e
      | .ok timestamp => .ok (ULID.mk (timestamp ++ r))

theorem decodeChars_map (ds : List Nat) : (∀ d ∈ ds, d < 32) →
    decodeChars (ds.map alphaChar) = some ds := by
  induction ds with
  | nil => intro h; rfl
  | cons d ds ih =>
    intro h
    have hd := decodeChar_alphaChar d (h d (List.mem_cons_self d ds))
    have hds := ih fun x hx => h x (List.mem_cons_of_mem d hx)
    simp [decodeChars, hd, hds]

theorem roundtrip_base32 (chars width bits : Nat) (B : List Nat)
    (hcap : 256 ^ width ≤ 2 ^ bits) (hch : 256 ^ width ≤ 32 ^ chars)
    (hlen : B.length = width) (hB : ∀ b ∈ B, b < 256) :
    decode_base32 chars width bits (encode_base32 chars B) = .ok B := by
  have hn : digitsToNat 256 B < 256 ^ width := by
    have := digitsToNat_lt 256 B (by norm_num) hB
    rwa [hlen] at this
  have hlen26 : (encode_base32 chars B).length = chars := by
    simp [encode_base32, natToDigits_length]
  have hdigits : ∀ d ∈ natToDigits 32 chars (digitsToNat 256 B), d < 32 :=
    natToDigits_lt 32 chars _ (by norm_num)
  have hmap := decodeChars_map (natToDigits 32 chars (digitsToNat 256 B)) hdigits
  have hval : digitsToNat 32 (natToDigits 32 chars (digitsToNat 256 B)) = digitsToNat 256 B :=
    digitsToNat_natToDigits 32 chars _ (lt_of_lt_of_le hn hch)
  have hback : natToDigits 256 width (digitsToNat 256 B) = B := by
    have := natToDigits_digitsToNat 256 B (by norm_num) hB
    rwa [hlen] at this
  have hcapn : ¬ 2 ^ bits ≤ digitsToNat 256 B := not_le.mpr (lt_of_lt_of_le hn hcap)
  have hmap' : decodeChars (encode_base32 chars B) =
      some (natToDigits 32 chars (digitsToNat 256 B)) := hmap
  simp only [decode_base32, hlen26]
  rw [hmap']
  simp [hval, hback, hcapn]

/-- Claim C1: decoding the canonical 26-character Base32 encoding of any
16-byte buffer `B` (`from_str` applied to the encoder's output) yields an
identifier whose bytes equal `B` exactly, and the analogous round-trips
hold for the 6-byte timestamp with its 10-character form and the 10-byte
randomness with its 16-character form. -/
theorem claim_roundtrip_bytes_text :
    (∀ B : List Nat, B.length = 16 → (∀ b ∈ B, b < 256) →
      from_str (encode_ulid B) = .ok (ULID.mk B)) ∧
    (∀ T : List Nat, T.length = 6 → (∀ b ∈ T, b < 256) →
      decode_timestamp (encode_timestamp T) = .ok T) ∧
    (∀ R : List Nat, R.length = 10 → (∀ b ∈ R, b < 256) →
      decode_randomness (encode_randomness R) = .ok R) := by
  refine ⟨fun B hlen hB => ?_, fun T hlen hT => ?_, fun R hlen hR => ?_⟩
  · have := roundtrip_base32 26 16 128 B (by norm_num) (by norm_num) hlen hB
    simp [from_str, decode_ulid, encode_ulid, this]
  · exact roundtrip_base32 10 6 48 T (by norm_num) (by norm_num) hlen hT
  · exact roundtrip_base32 16 10 80 R (by norm_num) (by norm_num) hlen hR

/-- Concrete instantiation of claim C1 at explicit buffers. -/
theorem claim_roundtrip_bytes_text_witness :
    ([0, 1, 98, 153, 179, 192, 0, 90, 30, 59, 44, 79, 93, 110, 231, 122] : List Nat).length = 16 ∧
    (∀ b ∈ ([0, 1, 98, 153, 179, 192, 0, 90, 30, 59, 44, 79, 93, 110, 231, 122] : List Nat), b < 256) ∧
    from_str (encode_ulid [0, 1, 98, 153, 179, 192, 0, 90, 30, 59, 44, 79, 93, 110, 231, 122]) =
      .ok (ULID.mk [0, 1, 98, 153, 179, 192, 0, 90, 30, 59, 44, 79, 93, 110, 231, 122]) ∧
    decode_timestamp (encode_timestamp [1, 2, 3, 4, 5, 6]) = .ok [1, 2, 3, 4, 5, 6] ∧
    decode_randomness (encode_randomness [255, 0, 1, 2, 3, 4, 5, 6, 7, 8]) =
      .ok [255, 0, 1, 2, 3, 4, 5, 6, 7, 8] := by
  refine ⟨by decide, by decide, ?_, ?_, ?_⟩
  · exact claim_roundtrip_bytes_text.1 _ (by decide) (by decide)
  · exact claim_roundtrip_bytes_text.2.1 _ (by decide) (by decide)
  · exact claim_roundtrip_bytes_text.2.2 _ (by decide) (by decide)

set_option maxRecDepth 8000

/-- Claim C4: `from_bytes` raises an error if and only if the input
buffer's length differs from 16; every buffer of exactly 16 bytes is used
verbatim (in particular 15- and 17-byte inputs fail). -/
theorem claim_from_bytes_width (b : List Nat) :
    (b.length = 16 → from_bytes b = .ok (ULID.mk b)) ∧
    (b.length ≠ 16 → from_bytes b =
      .error (.valueError ("Expects bytes to be 128 bits; got " ++ toString b.length ++ " bytes"))) ∧
    ((∃ u, from_bytes b = .ok u) ↔ b.length = 16) := by
  by_cases h : b.length = 16
  · refine ⟨fun _ => by simp [from_bytes, h], fun hc => absurd h hc, ?_⟩
    simp [from_bytes, h]
  · refine ⟨fun hc => absurd hc h, fun _ => by simp [from_bytes, h], ?_⟩
    simp [from_bytes, h]

/-- Concrete instantiation of claim C4 at a 16-byte, a 15-byte and a
17-byte buffer. -/
theorem claim_from_bytes_width_witness :
    (List.replicate 16 (7 : Nat)).length = 16 ∧
    from_bytes (List.replicate 16 (7 : Nat)) = .ok (ULID.mk (List.replicate 16 (7 : Nat))) ∧
    (List.replicate 15 (7 : Nat)).length ≠ 16 ∧
    from_bytes (List.replicate 15 (7 : Nat)) =
      .error (.valueError ("Expects bytes to be 128 bits; got " ++
        toString (List.replicate 15 (7 : Nat)).length ++ " bytes")) ∧
    (List.replicate 17 (7 : Nat)).length ≠ 16 ∧
    from_bytes (List.replicate 17 (7 : Nat)) =
      .error (.valueError ("Expects bytes to be 128 bits; got " ++
        toString (List.replicate 17 (7 : Nat)).length ++ " bytes")) := by
  refine ⟨by decide, ?_, by decide, ?_, by decide, ?_⟩
  · exact (claim_from_bytes_width _).1 (by decide)
  · exact (claim_from_bytes_width _).2.1 (by decide)
  · exact (claim_from_bytes_width _).2.1 (by decide)

/-- Claim C7: for every 128-bit UUID value, `from_uuid` succeeds (its model
is a total function) and the identifier's 16 bytes are the UUID's raw bytes
verbatim, with no translation applied. -/
theorem claim_from_uuid_verbatim (u : UUID) (h : u.bytes.length = 16) :
    (from_uuid u).bytes = u.bytes ∧ (from_uuid u).bytes.length = 16 :=
  ⟨rfl, by rw [show (from_uuid u).bytes = u.bytes from rfl, h]⟩

/-- Concrete instantiation of claim C7 at an explicit UUID value. -/
theorem claim_from_uuid_verbatim_witness :
    (UUID.mk (List.replicate 16 (201 : Nat))).bytes.length = 16 ∧
    (from_uuid (UUID.mk (List.replicate 16 (201 : Nat)))).bytes =
      (UUID.mk (List.replicate 16 (201 : Nat))).bytes ∧
    (from_uuid (UUID.mk (List.replicate 16 (201 : Nat)))).bytes.length = 16 := by
  refine ⟨by decide, ?_, ?_⟩
  · exact (claim_from_uuid_verbatim _ (by decide)).1
  · exact (claim_from_uuid_verbatim _ (by decide)).2

theorem bit_length_le_iff (m : Nat) : (bit_length m + 7) / 8 ≤ 16 ↔ m < 2 ^ 128 := by
  unfold bit_length
  by_cases hm : m = 0
  · subst hm
    simp
  · rw [if_neg hm]
    have hlog : Nat.log2 m < 128 ↔ m < 2 ^ 128 := Nat.log2_lt hm
    constructor
    · intro h
      exact hlog.mp (by omega)
    · intro h
      have := hlog.mpr h
      omega

/-- Claim C3: `from_int n` returns the identifier whose 16 bytes are the
unsigned big-endian rendering of `n` if and only if `0 ≤ n < 2 ^ 128`; it
fails with the positivity error when `n` is negative, and with the width
error when `n` needs more than 16 bytes (any `n ≥ 2 ^ 128`). -/
theorem claim_from_int_range (n : Int) :
    (0 ≤ n → n < 2 ^ 128 → from_int n = .ok (ULID.mk (natToDigits 256 16 n.toNat))) ∧
    (n < 0 → from_int n = .error (.valueError "Expects positive integer")) ∧
    (2 ^ 128 ≤ n → from_int n = .error (.valueError ("Expects integer to be 128 bits; got " ++
      toString ((bit_length n.toNat + 7) / 8) ++ " bytes"))) ∧
    ((∃ u, from_int n = .ok u) ↔ 0 ≤ n ∧ n < 2 ^ 128) := by
  have hpow : ((256 : Nat) ^ 16 : Nat) = 2 ^ 128 := by norm_num
  have part1 : 0 ≤ n → n < 2 ^ 128 → from_int n = .ok (ULID.mk (natToDigits 256 16 n.toNat)) := by
    intro h0 h128
    have hnn : ¬ n < 0 := not_lt.mpr h0
    have ht : n.toNat < 2 ^ 128 := by omega
    have hlen : ¬ 16 < (bit_length n.toNat + 7) / 8 :=
      not_lt.mpr ((bit_length_le_iff n.toNat).mpr ht)
    have hfit : ¬ (340282366920938463463374607431768211456 : Nat) ≤ n.toNat := by
      have hlit : (340282366920938463463374607431768211456 : Nat) = 2 ^ 128 := by norm_num
      rw [hlit]
      exact not_le.mpr ht
    simp [from_int, to_bytes, hnn, hlen, hfit]
  have part2 : n < 0 → from_int n = .error (.valueError "Expects positive integer") := by
    intro h
    simp [from_int, h]
  have part3 : 2 ^ 128 ≤ n → from_int n = .error (.valueError ("Expects integer to be 128 bits; got " ++
      toString ((bit_length n.toNat + 7) / 8) ++ " bytes")) := by
    intro h
    have hnn : ¬ n < 0 := by
      intro hc
      have : (0 : Int) < 2 ^ 128 := by positivity
      omega
    have ht : 2 ^ 128 ≤ n.toNat := by
      have : (0 : Int) ≤ 2 ^ 128 := by positivity
      omega
    have hlen : 16 < (bit_length n.toNat + 7) / 8 := by
      by_contra hc
      have := (bit_length_le_iff n.toNat).mp (not_lt.mp hc)
      omega
    simp [from_int, hnn, hlen]
  refine ⟨part1, part2, part3, ?_⟩
  constructor
  · rintro ⟨u, hu⟩
    rcases lt_or_le n 0 with h | h
    · rw [part2 h] at hu
      exact absurd hu (by simp)
    · rcases lt_or_le n (2 ^ 128) with h' | h'
      · exact ⟨h, h'⟩
      · rw [part3 h'] at hu
        exact absurd hu (by simp)
  · rintro ⟨h0, h128⟩
    exact ⟨_, part1 h0 h128⟩

/-- Concrete instantiation of claim C3 at `5`, `-1` and `2 ^ 128`. -/
theorem claim_from_int_range_witness :
    (0 : Int) ≤ 5 ∧ (5 : Int) < 2 ^ 128 ∧
    from_int 5 = .ok (ULID.mk (natToDigits 256 16 (5 : Int).toNat)) ∧
    (-1 : Int) < 0 ∧ from_int (-1) = .error (.valueError "Expects positive integer") ∧
    (2 : Int) ^ 128 ≤ 340282366920938463463374607431768211456 ∧
    from_int 340282366920938463463374607431768211456 =
      .error (.valueError ("Expects integer to be 128 bits; got " ++
        toString ((bit_length (340282366920938463463374607431768211456 : Int).toNat + 7) / 8) ++
        " bytes")) := by
  refine ⟨by decide, by decide, ?_, by decide, ?_, by decide, ?_⟩
  · exact (claim_from_int_range 5).1 (by decide) (by decide)
  · exact (claim_from_int_range (-1)).2.1 (by decide)
  · exact (claim_from_int_range 340282366920938463463374607431768211456).2.2.1 (by decide)

theorem to_bytes_ok (v : Int) (w : Nat) (h0 : 0 ≤ v) (hlt : v.toNat < 256 ^ w) :
    to_bytes v w = .ok (natToDigits 256 w v.toNat) := by
  simp [to_bytes, not_lt.mpr h0, not_le.mpr hlt]

theorem to_bytes_neg (v : Int) (w : Nat) (h : v < 0) :
    to_bytes v w = .error (.overflowError "cannot convert negative int to unsigned") := by
  simp [to_bytes, h]

theorem to_bytes_big (v : Int) (w : Nat) (h0 : ¬ v < 0) (h : 256 ^ w ≤ v.toNat) :
    to_bytes v w = .error (.overflowError "int too big to convert") := by
  simp [to_bytes, h0, h]

theorem to_bytes_length (v : Int) (w : Nat) (l : List Nat) (h : to_bytes v w = .ok l) :
    l.length = w := by
  unfold to_bytes at h
  split at h
  · exact absurd h (by simp)
  · split at h
    · exact absurd h (by simp)
    · rw [show l = natToDigits 256 w v.toNat from by injection h with h; exact h.symm]
      exact natToDigits_length 256 w v.toNat

theorem decode_base32_length (chars width bits : Nat) (s : List Char) (l : List Nat)
    (h : decode_base32 chars width bits s = .ok l) : l.length = width := by
  unfold decode_base32 at h
  split at h
  · exact absurd h (by simp)
  · split at h
    · exact absurd h (by simp)
    · dsimp only at h
      split at h
      · exact absurd h (by simp)
      · rw [show l = natToDigits 256 width _ from by injection h with h; exact h.symm]
        exact natToDigits_length 256 width _

theorem from_timestamp_err (tp : TimestampPrimitive) (rand : List Nat) (e : Err)
    (h : reduce_timestamp tp = .error e) : from_timestamp tp rand = .error e := by
  simp [from_timestamp, h]

theorem from_timestamp_ok (tp : TimestampPrimitive) (rand ts : List Nat)
    (h : reduce_timestamp tp = .ok ts) (hlen : ts.length = 6) :
    from_timestamp tp rand = .ok (ULID.mk (ts ++ rand)) := by
  simp [from_timestamp, h, hlen]

theorem from_randomness_err (rp : RandomnessPrimitive) (tnow : ℚ) (e : Err)
    (h : reduce_randomness rp = .error e) : from_randomness rp tnow = .error e := by
  simp [from_randomness, h]

theorem from_randomness_ok (rp : RandomnessPrimitive) (tnow : ℚ) (r ts : List Nat)
    (h : reduce_randomness rp = .ok r) (hlen : r.length = 10)
    (hts : to_bytes (msOfSeconds tnow) 6 = .ok ts) :
    from_randomness rp tnow = .ok (ULID.mk (ts ++ r)) := by
  simp [from_randomness, h, hlen, hts]

/-- Claim C9: inputs whose runtime form is outside the documented shape set
are rejected by `from_timestamp` and `from_randomness` with a `ValueError`
naming the offending type, and no identifier is returned. -/
theorem claim_unsupported_shape_rejected (ty : String) (rand : List Nat) (tnow : ℚ) :
    from_timestamp (.other ty) rand =
      .error (.valueError ("Expected datetime, int, float, str, memoryview, Timestamp, ULID, " ++
        "bytes, or bytearray; got " ++ ty)) ∧
    from_randomness (.other ty) tnow =
      .error (.valueError ("Expected int, float, str, memoryview, Randomness, ULID, " ++
        "bytes, or bytearray; got " ++ ty)) :=
  ⟨from_timestamp_err _ _ _ rfl, from_randomness_err _ _ _ rfl⟩

/-- Claim C8: a `bytes` or `bytearray` input whose length after reduction
is not the component width is always a hard `ValueError` (reporting the
actual length), never silent truncation or padding: `from_timestamp`
requires 6 bytes and `from_randomness` requires 10. -/
theorem claim_width_failure_never_truncates (t b rand : List Nat) (tnow : ℚ) :
    (t.length ≠ 6 →
      from_timestamp (.bytes t) rand =
        .error (.valueError ("Expects timestamp to be 48 bits; got " ++
          toString t.length ++ " bytes")) ∧
      from_timestamp (.bytearray t) rand =
        .error (.valueError ("Expects timestamp to be 48 bits; got " ++
          toString t.length ++ " bytes"))) ∧
    (b.length ≠ 10 →
      from_randomness (.bytes b) tnow =
        .error (.valueError ("Expects randomness to be 80 bits; got " ++
          toString b.length ++ " bytes")) ∧
      from_randomness (.bytearray b) tnow =
        .error (.valueError ("Expects randomness to be 80 bits; got " ++
          toString b.length ++ " bytes"))) := by
  constructor
  · intro h
    constructor
    · simp [from_timestamp, reduce_timestamp, h]
    · simp [from_timestamp, reduce_timestamp, h]
  · intro h
    constructor
    · simp [from_randomness, reduce_randomness, h]
    · simp [from_randomness, reduce_randomness, h]

/-- Concrete instantiation of claim C8 at a 5-byte timestamp buffer and an
11-byte randomness buffer. -/
theorem claim_width_failure_never_truncates_witness :
    ([1, 2, 3, 4, 5] : List Nat).length ≠ 6 ∧
    from_timestamp (.bytes [1, 2, 3, 4, 5]) [] =
      .error (.valueError ("Expects timestamp to be 48 bits; got " ++
        toString ([1, 2, 3, 4, 5] : List Nat).length ++ " bytes")) ∧
    ([1, 2, 3, 4, 5, 6, 7, 8, 9, 10, 11] : List Nat).length ≠ 10 ∧
    from_randomness (.bytearray [1, 2, 3, 4, 5, 6, 7, 8, 9, 10, 11]) 0 =
      .error (.valueError ("Expects randomness to be 80 bits; got " ++
        toString ([1, 2, 3, 4, 5, 6, 7, 8, 9, 10, 11] : List Nat).length ++ " bytes")) := by
  refine ⟨by decide, ?_, by decide, ?_⟩
  · exact ((claim_width_failure_never_truncates [1, 2, 3, 4, 5] [] [] 0).1 (by decide)).1
  · exact ((claim_width_failure_never_truncates [] [1, 2, 3, 4, 5, 6, 7, 8, 9, 10, 11] [] 0).2
      (by decide)).2

/-- Claim C10: numeric inputs whose reduced value is out of range still
fail, but with `OverflowError` (raised by the fixed-width
`int.to_bytes` conversion) rather than the `ValueError` of the other
failure modes, and no identifier is produced. -/
theorem claim_numeric_overflow_error_kind (n m : Int) (q p : ℚ) (rand : List Nat) (tnow : ℚ) :
    (n * 1000 < 0 ∨ 2 ^ 48 ≤ n * 1000 →
      ∃ msg, from_timestamp (.int n) rand = .error (.overflowError msg)) ∧
    (msOfSeconds q < 0 ∨ 2 ^ 48 ≤ msOfSeconds q →
      ∃ msg, from_timestamp (.float q) rand = .error (.overflowError msg)) ∧
    (m < 0 ∨ 2 ^ 80 ≤ m →
      ∃ msg, from_randomness (.int m) tnow = .error (.overflowError msg)) ∧
    (pyTrunc p < 0 ∨ 2 ^ 80 ≤ pyTrunc p →
      ∃ msg, from_randomness (.float p) tnow = .error (.overflowError msg)) := by
  have h48 : ((2 : Int) ^ 48 : Int) = 281474976710656 := by norm_num
  have h80 : ((2 : Int) ^ 80 : Int) = 1208925819614629174706176 := by norm_num
  have hn6 : ((256 : Nat) ^ 6 : Nat) = 281474976710656 := by norm_num
  have hn10 : ((256 : Nat) ^ 10 : Nat) = 1208925819614629174706176 := by norm_num
  have key : ∀ (v : Int) (w : Nat), v < 0 ∨ (256 ^ w : Nat) ≤ v →
      ∃ msg, to_bytes v w = .error (.overflowError msg) := by
    intro v w hv
    rcases hv with hv | hv
    · exact ⟨_, to_bytes_neg v w hv⟩
    · refine ⟨_, to_bytes_big v w ?_ ?_⟩
      · have : (0 : Int) ≤ (256 ^ w : Nat) := Int.natCast_nonneg _
        omega
      · omega
  refine ⟨?_, ?_, ?_, ?_⟩
  · intro h
    obtain ⟨msg, hmsg⟩ := key (n * 1000) 6 (by rw [hn6]; omega)
    exact ⟨msg, from_timestamp_err _ _ _ (by simp [reduce_timestamp, hmsg])⟩
  · intro h
    obtain ⟨msg, hmsg⟩ := key (msOfSeconds q) 6 (by rw [hn6]; omega)
    exact ⟨msg, from_timestamp_err _ _ _ (by simp [reduce_timestamp, hmsg])⟩
  · intro h
    obtain ⟨msg, hmsg⟩ := key m 10 (by rw [hn10]; omega)
    exact ⟨msg, from_randomness_err _ _ _ (by simp [reduce_randomness, hmsg])⟩
  · intro h
    obtain ⟨msg, hmsg⟩ := key (pyTrunc p) 10 (by rw [hn10]; omega)
    exact ⟨msg, from_randomness_err _ _ _ (by simp [reduce_randomness, hmsg])⟩

/-- Concrete instantiation of claim C10: `from_timestamp(2 ** 48)` (seconds
value whose milliseconds overflow 48 bits) and `from_randomness(-1)`. -/
theorem claim_numeric_overflow_error_kind_witness :
    ((281474976710656 : Int) * 1000 < 0 ∨ (2 : Int) ^ 48 ≤ 281474976710656 * 1000) ∧
    (∃ msg, from_timestamp (.int 281474976710656) [] = .error (.overflowError msg)) ∧
    ((-1 : Int) < 0 ∨ (2 : Int) ^ 80 ≤ -1) ∧
    (∃ msg, from_randomness (.int (-1)) 0 = .error (.overflowError msg)) := by
  refine ⟨by decide, ?_, by decide, ?_⟩
  · exact (claim_numeric_overflow_error_kind 281474976710656 0 0 0 [] 0).1 (by decide)
  · exact (claim_numeric_overflow_error_kind 0 (-1) 0 0 [] 0).2.2.1 (by decide)

theorem ULID_timestamp_bytes (ts rand : List Nat) (h : ts.length = 6) :
    (ULID.mk (ts ++ rand)).timestamp.bytes = ts :=
  List.take_left' h

theorem ULID_randomness_bytes (ts r : List Nat) (h6 : ts.length = 6) (h10 : r.length = 10) :
    (ULID.mk (ts ++ r)).randomness.bytes = r := by
  show ((ts ++ r).drop 6).take 10 = r
  rw [List.drop_left' h6, ← h10, List.take_length r]

theorem to_bytes_ms_ok (v : Int) (h0 : 0 ≤ v) (h48 : v < 2 ^ 48) :
    to_bytes v 6 = .ok (natToDigits 256 6 v.toNat) := by
  apply to_bytes_ok v 6 h0
  have hl : ((2 : Int) ^ 48 : Int) = 281474976710656 := by norm_num
  have hn : ((256 : Nat) ^ 6 : Nat) = 281474976710656 := by norm_num
  rw [hn]
  rw [hl] at h48
  omega

/-- Claim C5: for every int or float seconds input `s` with
`0 ≤ int(s * 1000) < 2 ^ 48`, `from_timestamp` succeeds and the first 6
bytes of the identifier (its Timestamp component) are the unsigned
big-endian encoding of `int(s * 1000)`; in particular
`from_timestamp(1700000000)` yields a Timestamp component equal to
`1700000000000` milliseconds. -/
theorem claim_from_timestamp_milliseconds (n : Int) (q : ℚ) (rand : List Nat)
    (hn0 : 0 ≤ n * 1000) (hn48 : n * 1000 < 2 ^ 48)
    (hq0 : 0 ≤ msOfSeconds q) (hq48 : msOfSeconds q < 2 ^ 48) :
    (from_timestamp (.int n) rand =
        .ok (ULID.mk (natToDigits 256 6 (n * 1000).toNat ++ rand)) ∧
      (ULID.mk (natToDigits 256 6 (n * 1000).toNat ++ rand)).timestamp.bytes =
        natToDigits 256 6 (n * 1000).toNat) ∧
    (from_timestamp (.float q) rand =
        .ok (ULID.mk (natToDigits 256 6 (msOfSeconds q).toNat ++ rand)) ∧
      (ULID.mk (natToDigits 256 6 (msOfSeconds q).toNat ++ rand)).timestamp.bytes =
        natToDigits 256 6 (msOfSeconds q).toNat) ∧
    (from_timestamp (.int 1700000000) rand =
        .ok (ULID.mk (natToDigits 256 6 1700000000000 ++ rand)) ∧
      (ULID.mk (natToDigits 256 6 1700000000000 ++ rand)).timestamp.milliseconds =
        1700000000000) := by
  have hredInt : ∀ k : Int, 0 ≤ k * 1000 → k * 1000 < 2 ^ 48 →
      reduce_timestamp (.int k) = .ok (natToDigits 256 6 (k * 1000).toNat) := by
    intro k h0 h48
    exact to_bytes_ms_ok (k * 1000) h0 h48
  have hconc : (1700000000 * 1000 : Int).toNat = 1700000000000 := by decide
  refine ⟨⟨?_, ?_⟩, ⟨?_, ?_⟩, ⟨?_, ?_⟩⟩
  · exact from_timestamp_ok _ _ _ (hredInt n hn0 hn48) (natToDigits_length 256 6 _)
  · exact ULID_timestamp_bytes _ _ (natToDigits_length 256 6 _)
  · exact from_timestamp_ok _ _ _ (to_bytes_ms_ok (msOfSeconds q) hq0 hq48)
      (natToDigits_length 256 6 _)
  · exact ULID_timestamp_bytes _ _ (natToDigits_length 256 6 _)
  · have := from_timestamp_ok _ rand _ (hredInt 1700000000 (by decide) (by decide))
      (natToDigits_length 256 6 _)
    rwa [hconc] at this
  · show Timestamp.milliseconds ⟨(natToDigits 256 6 1700000000000 ++ rand).take 6⟩ = 1700000000000
    rw [show (natToDigits 256 6 1700000000000 ++ rand).take 6 = natToDigits 256 6 1700000000000
      from List.take_left' (natToDigits_length 256 6 _)]
    show digitsToNat 256 (natToDigits 256 6 1700000000000) = 1700000000000
    exact digitsToNat_natToDigits 256 6 1700000000000 (by norm_num)

/-- Concrete instantiation of claim C5 at seconds `3` (int), `2` (float)
and the concrete scenario `1700000000`. -/
theorem claim_from_timestamp_milliseconds_witness :
    (0 : Int) ≤ 3 * 1000 ∧ (3 : Int) * 1000 < 2 ^ 48 ∧
    0 ≤ msOfSeconds 2 ∧ msOfSeconds 2 < 2 ^ 48 ∧
    from_timestamp (.int 3) [9, 9, 9, 9, 9, 9, 9, 9, 9, 9] =
      .ok (ULID.mk (natToDigits 256 6 ((3 : Int) * 1000).toNat ++ [9, 9, 9, 9, 9, 9, 9, 9, 9, 9])) ∧
    from_timestamp (.float 2) [9, 9, 9, 9, 9, 9, 9, 9, 9, 9] =
      .ok (ULID.mk (natToDigits 256 6 (msOfSeconds 2).toNat ++ [9, 9, 9, 9, 9, 9, 9, 9, 9, 9])) ∧
    from_timestamp (.int 1700000000) [9, 9, 9, 9, 9, 9, 9, 9, 9, 9] =
      .ok (ULID.mk (natToDigits 256 6 1700000000000 ++ [9, 9, 9, 9, 9, 9, 9, 9, 9, 9])) ∧
    (ULID.mk (natToDigits 256 6 1700000000000 ++
      [9, 9, 9, 9, 9, 9, 9, 9, 9, 9])).timestamp.milliseconds = 1700000000000 := by
  refine ⟨by decide, by decide, by decide, by decide, ?_, ?_, ?_, ?_⟩
  · exact ((claim_from_timestamp_milliseconds 3 2 _ (by decide) (by decide) (by decide)
      (by decide)).1).1
  · exact ((claim_from_timestamp_milliseconds 3 2 _ (by decide) (by decide) (by decide)
      (by decide)).2.1).1
  · exact ((claim_from_timestamp_milliseconds 3 2 _ (by decide) (by decide) (by decide)
      (by decide)).2.2).1
  · exact ((claim_from_timestamp_milliseconds 3 2 _ (by decide) (by decide) (by decide)
      (by decide)).2.2).2

theorem to_bytes_rand_ok (v : Int) (h0 : 0 ≤ v) (h80 : v < 2 ^ 80) :
    to_bytes v 10 = .ok (natToDigits 256 10 v.toNat) := by
  apply to_bytes_ok v 10 h0
  have hl : ((2 : Int) ^ 80 : Int) = 1208925819614629174706176 := by norm_num
  have hn : ((256 : Nat) ^ 10 : Nat) = 1208925819614629174706176 := by norm_num
  rw [hn]
  rw [hl] at h80
  omega

/-- Claim C6: a 10-byte buffer input (`bytes`, `bytearray` or `memoryview`)
to `from_randomness` lands verbatim in bytes `[6:16)` of the identifier;
an integer `0 ≤ m < 2 ^ 80` (and a float, truncated to such an integer)
lands there as its unsigned big-endian 10-byte encoding; and every
buffer-shaped input whose length is not 10 fails with an error. -/
theorem claim_from_randomness_shapes (r : List Nat) (m : Int) (p : ℚ) (tnow : ℚ)
    (hr : r.length = 10)
    (ht0 : 0 ≤ msOfSeconds tnow) (ht48 : msOfSeconds tnow < 2 ^ 48)
    (hm0 : 0 ≤ m) (hm80 : m < 2 ^ 80)
    (hp0 : 0 ≤ pyTrunc p) (hp80 : pyTrunc p < 2 ^ 80) :
    (from_randomness (.bytes r) tnow =
        .ok (ULID.mk (natToDigits 256 6 (msOfSeconds tnow).toNat ++ r)) ∧
      (ULID.mk (natToDigits 256 6 (msOfSeconds tnow).toNat ++ r)).randomness.bytes = r) ∧
    (from_randomness (.bytearray r) tnow =
        .ok (ULID.mk (natToDigits 256 6 (msOfSeconds tnow).toNat ++ r))) ∧
    (from_randomness (.memoryview r) tnow =
        .ok (ULID.mk (natToDigits 256 6 (msOfSeconds tnow).toNat ++ r))) ∧
    (from_randomness (.int m) tnow =
        .ok (ULID.mk (natToDigits 256 6 (msOfSeconds tnow).toNat ++
          natToDigits 256 10 m.toNat)) ∧
      (ULID.mk (natToDigits 256 6 (msOfSeconds tnow).toNat ++
        natToDigits 256 10 m.toNat)).randomness.bytes = natToDigits 256 10 m.toNat) ∧
    (from_randomness (.float p) tnow =
        .ok (ULID.mk (natToDigits 256 6 (msOfSeconds tnow).toNat ++
          natToDigits 256 10 (pyTrunc p).toNat))) ∧
    (∀ b : List Nat, b.length ≠ 10 →
      from_randomness (.bytes b) tnow =
        .error (.valueError ("Expects randomness to be 80 bits; got " ++
          toString b.length ++ " bytes")) ∧
      from_randomness (.bytearray b) tnow =
        .error (.valueError ("Expects randomness to be 80 bits; got " ++
          toString b.length ++ " bytes")) ∧
      from_randomness (.memoryview b) tnow =
        .error (.valueError ("Expects randomness to be 80 bits; got " ++
          toString b.length ++ " bytes"))) := by
  have hts : to_bytes (msOfSeconds tnow) 6 = .ok (natToDigits 256 6 (msOfSeconds tnow).toNat) :=
    to_bytes_ms_ok (msOfSeconds tnow) ht0 ht48
  have hts6 : (natToDigits 256 6 (msOfSeconds tnow).toNat).length = 6 :=
    natToDigits_length 256 6 _
  refine ⟨⟨?_, ?_⟩, ?_, ?_, ⟨?_, ?_⟩, ?_, ?_⟩
  · exact from_randomness_ok _ _ _ _ rfl hr hts
  · exact ULID_randomness_bytes _ _ hts6 hr
  · exact from_randomness_ok _ _ _ _ rfl hr hts
  · exact from_randomness_ok _ _ _ _ rfl hr hts
  · exact from_randomness_ok _ _ _ _ (to_bytes_rand_ok m hm0 hm80)
      (natToDigits_length 256 10 _) hts
  · exact ULID_randomness_bytes _ _ hts6 (natToDigits_length 256 10 _)
  · exact from_randomness_ok _ _ _ _ (to_bytes_rand_ok (pyTrunc p) hp0 hp80)
      (natToDigits_length 256 10 _) hts
  · intro b hb
    refine ⟨?_, ?_, ?_⟩
    · simp [from_randomness, reduce_randomness, hb]
    · simp [from_randomness, reduce_randomness, hb]
    · simp [from_randomness, reduce_randomness, hb]

/-- Concrete instantiation of claim C6 at a 10-byte buffer, the integer
`77`, the float `5`, clock seconds `0`, and an 11-byte failing buffer. -/
theorem claim_from_randomness_shapes_witness :
    ([10, 20, 30, 40, 50, 60, 70, 80, 90, 100] : List Nat).length = 10 ∧
    0 ≤ msOfSeconds 0 ∧ msOfSeconds 0 < 2 ^ 48 ∧
    (0 : Int) ≤ 77 ∧ (77 : Int) < 2 ^ 80 ∧
    0 ≤ pyTrunc 5 ∧ pyTrunc 5 < 2 ^ 80 ∧
    from_randomness (.bytes [10, 20, 30, 40, 50, 60, 70, 80, 90, 100]) 0 =
      .ok (ULID.mk (natToDigits 256 6 (msOfSeconds 0).toNat ++
        [10, 20, 30, 40, 50, 60, 70, 80, 90, 100])) ∧
    (ULID.mk (natToDigits 256 6 (msOfSeconds 0).toNat ++
      [10, 20, 30, 40, 50, 60, 70, 80, 90, 100])).randomness.bytes =
      [10, 20, 30, 40, 50, 60, 70, 80, 90, 100] ∧
    from_randomness (.int 77) 0 =
      .ok (ULID.mk (natToDigits 256 6 (msOfSeconds 0).toNat ++
        natToDigits 256 10 (77 : Int).toNat)) ∧
    from_randomness (.float 5) 0 =
      .ok (ULID.mk (natToDigits 256 6 (msOfSeconds 0).toNat ++
        natToDigits 256 10 (pyTrunc 5).toNat)) ∧
    from_randomness (.memoryview [0, 0, 0]) 0 =
      .error (.valueError ("Expects randomness to be 80 bits; got " ++
        toString ([0, 0, 0] : List Nat).length ++ " bytes")) := by
  have base := claim_from_randomness_shapes [10, 20, 30, 40, 50, 60, 70, 80, 90, 100] 77 5 0
    (by decide) (by decide) (by decide) (by decide) (by decide) (by decide) (by decide)
  refine ⟨by decide, by decide, by decide, by decide, by decide, by decide, by decide,
    ?_, ?_, ?_, ?_, ?_⟩
  · exact base.1.1
  · exact base.1.2
  · exact base.2.2.2.1.1
  · exact base.2.2.2.2.1
  · exact (base.2.2.2.2.2 [0, 0, 0] (by decide)).2.2

theorem new_ok_inv (tnow : ℚ) (rand : List Nat) (x : ULID) (h : new tnow rand = .ok x) :
    ∃ ts, to_bytes (msOfSeconds tnow) 6 = .ok ts ∧ x = ULID.mk (ts ++ rand) := by
  unfold new at h
  split at h
  · exact absurd h (by simp)
  · rename_i ts heq
    exact ⟨ts, heq, by injection h with h; exact h.symm⟩

theorem from_bytes_ok_inv (b : List Nat) (x : ULID) (h : from_bytes b = .ok x) :
    b.length = 16 ∧ x = ULID.mk b := by
  unfold from_bytes at h
  dsimp only at h
  split at h
  · exact absurd h (by simp)
  · rename_i hlen
    exact ⟨not_ne_iff.mp hlen, by injection h with h; exact h.symm⟩

theorem from_int_ok_inv (n : Int) (x : ULID) (h : from_int n = .ok x) :
    ∃ bts, to_bytes n 16 = .ok bts ∧ x = ULID.mk bts := by
  unfold from_int at h
  split at h
  · exact absurd h (by simp)
  · dsimp only at h
    split at h
    · exact absurd h (by simp)
    · split at h
      · exact absurd h (by simp)
      · rename_i bts heq
        exact ⟨bts, heq, by injection h with h; exact h.symm⟩

theorem from_str_ok_inv (s : List Char) (x : ULID) (h : from_str s = .ok x) :
    ∃ bts, decode_ulid s = .ok bts ∧ x = ULID.mk bts := by
  unfold from_str at h
  split at h
  · exact absurd h (by simp)
  · rename_i bts heq
    exact ⟨bts, heq, by injection h with h; exact h.symm⟩

theorem from_timestamp_ok_inv (tp : TimestampPrimitive) (rand : List Nat) (x : ULID)
    (h : from_timestamp tp rand = .ok x) :
    ∃ ts, reduce_timestamp tp = .ok ts ∧ ts.length = 6 ∧ x = ULID.mk (ts ++ rand) := by
  unfold from_timestamp at h
  split at h
  · exact absurd h (by simp)
  · rename_i ts heq
    dsimp only at h
    split at h
    · exact absurd h (by simp)
    · rename_i hlen
      exact ⟨ts, heq, not_ne_iff.mp hlen, by injection h with h; exact h.symm⟩

theorem from_randomness_ok_inv (rp : RandomnessPrimitive) (tnow : ℚ) (x : ULID)
    (h : from_randomness rp tnow = .ok x) :
    ∃ r ts, reduce_randomness rp = .ok r ∧ r.length = 10 ∧
      to_bytes (msOfSeconds tnow) 6 = .ok ts ∧ x = ULID.mk (ts ++ r) := by
  unfold from_randomness at h
  split at h
  · exact absurd h (by simp)
  · rename_i r heq
    dsimp only at h
    split at h
    · exact absurd h (by simp)
    · rename_i hlen
      split at h
      · exact absurd h (by simp)
      · rename_i ts hts
        exact ⟨r, ts, heq, not_ne_iff.mp hlen, hts, by injection h with h; exact h.symm⟩

/-- Claim C2: every constructor of the API either returns an identifier
whose underlying buffer is exactly 16 bytes, or fails with an error before
any identifier is created (`from_uuid`, which cannot fail, always returns
16 bytes for a 128-bit UUID); no wrongly-sized value is observable.  The
random source is assumed to honour its contract of returning exactly the
requested 10 bytes. -/
theorem claim_construction_total_16_bytes (tnow : ℚ) (rand b : List Nat) (n : Int)
    (s : List Char) (u : UUID) (tp : TimestampPrimitive) (rp : RandomnessPrimitive)
    (hrand : rand.length = 10) (huuid : u.bytes.length = 16) :
    (∀ x, new tnow rand = .ok x → x.bytes.length = 16) ∧
    (∀ x, from_bytes b = .ok x → x.bytes.length = 16) ∧
    (∀ x, from_int n = .ok x → x.bytes.length = 16) ∧
    (∀ x, from_str s = .ok x → x.bytes.length = 16) ∧
    (from_uuid u).bytes.length = 16 ∧
    (∀ x, from_timestamp tp rand = .ok x → x.bytes.length = 16) ∧
    (∀ x, from_randomness rp tnow = .ok x → x.bytes.length = 16) := by
  refine ⟨?_, ?_, ?_, ?_, huuid, ?_, ?_⟩
  · intro x hx
    obtain ⟨ts, hts, rfl⟩ := new_ok_inv tnow rand x hx
    simp [List.length_append, to_bytes_length _ _ _ hts, hrand]
  · intro x hx
    obtain ⟨hlen, rfl⟩ := from_bytes_ok_inv b x hx
    exact hlen
  · intro x hx
    obtain ⟨bts, hbts, rfl⟩ := from_int_ok_inv n x hx
    exact to_bytes_length _ _ _ hbts
  · intro x hx
    obtain ⟨bts, hbts, rfl⟩ := from_str_ok_inv s x hx
    exact decode_base32_length 26 16 128 s bts hbts
  · intro x hx
    obtain ⟨ts, _, hlen, rfl⟩ := from_timestamp_ok_inv tp rand x hx
    simp [List.length_append, hlen, hrand]
  · intro x hx
    obtain ⟨r, ts, _, hlen, hts, rfl⟩ := from_randomness_ok_inv rp tnow x hx
    simp [List.length_append, hlen, to_bytes_length _ _ _ hts]

/-- Concrete instantiation of claim C2 with explicit inputs for each
constructor. -/
theorem claim_construction_total_16_bytes_witness :
    (List.replicate 10 (4 : Nat)).length = 10 ∧
    (UUID.mk (List.replicate 16 (9 : Nat))).bytes.length = 16 ∧
    (∀ x, new 1 (List.replicate 10 (4 : Nat)) = .ok x → x.bytes.length = 16) ∧
    (∀ x, from_bytes [] = .ok x → x.bytes.length = 16) ∧
    (∀ x, from_int 12 = .ok x → x.bytes.length = 16) ∧
    (∀ x, from_str [] = .ok x → x.bytes.length = 16) ∧
    (from_uuid (UUID.mk (List.replicate 16 (9 : Nat)))).bytes.length = 16 ∧
    (∀ x, from_timestamp (.int 3) (List.replicate 10 (4 : Nat)) = .ok x →
      x.bytes.length = 16) ∧
    (∀ x, from_randomness (.int 3) 1 = .ok x → x.bytes.length = 16) := by
  have base := claim_construction_total_16_bytes 1 (List.replicate 10 (4 : Nat)) [] 12 []
    (UUID.mk (List.replicate 16 (9 : Nat))) (.int 3) (.int 3) (by decide) (by decide)
  exact ⟨by decide, by decide, base.1, base.2.1, base.2.2.1, base.2.2.2.1,
    base.2.2.2.2.1, base.2.2.2.2.2.1, base.2.2.2.2.2.2⟩
